import Mathlib

/-!
Shallow embedding of the client-side aggregation pipeline of the
collection-curves dashboard: per-provider grouping and totals
(providers page), risk/performance scoring and letter grading
(analytics page), and time-bucketed recovery curves (curves page).
JavaScript numbers are modelled as rationals; nullable row fields as
`Option`; JavaScript `Date` construction as `RawDate`/`toDate`.
-/

namespace CollectionCurves

/-- Raw value of a date column before `new Date(...)` is applied:
`missing` is a null column (falsy; `new Date(null)` is the epoch),
`invalid` is a non-empty unparseable string (truthy; `new Date` gives an
Invalid Date), `valid ms` is a parseable date worth `ms` milliseconds
since the epoch. -/
inductive RawDate where
  | missing : RawDate
  | invalid : RawDate
  | valid : Int → RawDate
deriving DecidableEq, Repr

/-- Millisecond timestamp produced by `new Date(x).getTime()`:
`none` stands for NaN (Invalid Date). -/
def RawDate.toDate : RawDate → Option Int
  | .missing => some 0
  | .invalid => none
  | .valid ms => some ms

/-- JavaScript truthiness of the raw column value. -/
def RawDate.truthy : RawDate → Bool
  | .missing => false
  | _ => true

/-- One row of the `fund_data` table, restricted to the columns the
aggregation pipeline reads. -/
structure Record where
  provider_name_per_tbr : Option String
  total_sent : Option ℚ
  total_repaid : Option ℚ
  case_status : Option String
  repaid : Bool
  origination_date : RawDate
  repayment_date : RawDate
deriving DecidableEq, Repr

/-- Provider key of a record, `none` when the provider column is falsy
(null or the empty string), in which case every page skips the record. -/
def keyOf (r : Record) : Option String :=
  if r.provider_name_per_tbr.getD "" = "" then none
  else some (r.provider_name_per_tbr.getD "")

/-- Lookup in an insertion-ordered association list, the model of a
JavaScript `Map`. -/
def lookupA {α β : Type} [DecidableEq α] (k : α) : List (α × β) → Option β
  | [] => none
  | (k₁, v) :: rest => if k₁ = k then some v else lookupA k rest

/-- Update the value at `k` in place, or append `(k, v)` when absent:
the model of `Map.set` keeping insertion order. -/
def upsertA {α β : Type} [DecidableEq α] (k : α) (v : β) :
    List (α × β) → List (α × β)
  | [] => [(k, v)]
  | (k₁, v₁) :: rest =>
      if k₁ = k then (k₁, v) :: rest else (k₁, v₁) :: upsertA k v rest

/-! ### Providers page: grouping and totals (`fetchProviderData`) -/

/-- Mutable accumulator stored in `providerMap` on the providers page. -/
structure PBucket where
  total_sent : ℚ
  total_repaid : ℚ
  case_count : ℕ
  pending_cases : ℕ
  closed_cases : ℕ
  total_multiple : ℚ
deriving DecidableEq, Repr

/-- Fresh bucket created on first encounter of a provider. -/
def pInit : PBucket := ⟨0, 0, 0, 0, 0, 0⟩

/-- Per-record mutation of a provider bucket (providers page, loop
body): add the amounts with `|| 0` defaulting, bump `case_count`, bump
`pending_cases` exactly when `case_status === "Pending"` (strict equality), else bump
`closed_cases` when the `repaid` column is truthy, and accumulate the
per-case multiple when `total_sent > 0`. -/
def pStep (r : Record) (p : PBucket) : PBucket :=
  let p₁ : PBucket :=
    { p with
      total_sent := p.total_sent + r.total_sent.getD 0
      total_repaid := p.total_repaid + r.total_repaid.getD 0
      case_count := p.case_count + 1 }
  let p₂ : PBucket :=
    if r.case_status = some "Pending" then
      { p₁ with pending_cases := p₁.pending_cases + 1 }
    else if r.repaid then
      { p₁ with closed_cases := p₁.closed_cases + 1 }
    else p₁
  if 0 < r.total_sent.getD 0 then
    { p₂ with
      total_multiple :=
        p₂.total_multiple + r.total_repaid.getD 0 / r.total_sent.getD 0 }
  else p₂

/-- One iteration of the `data?.forEach` loop on the providers page. -/
def providerStep (m : List (String × PBucket)) (r : Record) :
    List (String × PBucket) :=
  match keyOf r with
  | none => m
  | some k => upsertA k (pStep r ((lookupA k m).getD pInit)) m

/-- The provider aggregation: a single pass over the records building
`providerMap`. -/
def providerAgg (records : List Record) : List (String × PBucket) :=
  records.foldl providerStep []

/-- Finalised recovery rate of a bucket (providers page, line 85):
`total_sent > 0 ? total_repaid / total_sent * 100 : 0`. -/
def recoveryRatePct (p : PBucket) : ℚ :=
  if 0 < p.total_sent then p.total_repaid / p.total_sent * 100 else 0

/-- Finalised average multiple of a bucket (providers page, line 84). -/
def avgMultiple (p : PBucket) : ℚ :=
  if 0 < p.case_count then p.total_multiple / p.case_count else 0

/-! ### Analytics page: scoring and grading (`fetchAnalyticsData`) -/

/-- Gregorian (year, month) of a day count since the Unix epoch, as
rendered by `Date.prototype.toISOString().slice(0, 7)` (UTC calendar);
the civil-from-days algorithm of Howard Hinnant. -/
def civilFromDays (z₀ : Int) : Int × Int :=
  let z := z₀ + 719468
  let era := z.fdiv 146097
  let doe := z - era * 146097
  let yoe := (doe - doe / 1460 + doe / 36524 - doe / 146096) / 365
  let y := yoe + era * 400
  let doy := doe - (365 * yoe + yoe / 4 - yoe / 100)
  let mp := (5 * doy + 2) / 153
  let m := mp + (if mp < 10 then 3 else -9)
  (y + (if m ≤ 2 then 1 else 0), m)

/-- Calendar-month key of the origination date of a record, the model of
`new Date(record.origination_date).toISOString().slice(0, 7)`:
`none` when that call throws (Invalid Date). -/
def monthKey? (r : Record) : Option (Int × Int) :=
  (r.origination_date.toDate).map (fun t => civilFromDays (t.fdiv 86400000))

/-- Number of days between origination and repayment, the value pushed
into `recoveryTimes`; `none` models the NaN produced when a guarded-in
date string fails to parse. -/
def recoveryDays? (r : Record) : Option ℚ :=
  match r.origination_date.toDate, r.repayment_date.toDate with
  | some o, some rp => some (((rp - o).fdiv 86400000 : Int) : ℚ)
  | _, _ => none

/-- Mutable accumulator stored in `providerAnalytics` on the analytics
page; `monthly` is the `monthlyPerformance` map of (invested,
recovered) pairs keyed by origination month. -/
structure ABucket where
  totalInvested : ℚ
  totalRecovered : ℚ
  caseCount : ℕ
  recoveryTimes : List (Option ℚ)
  monthly : List ((Int × Int) × (ℚ × ℚ))
deriving DecidableEq, Repr

/-- Fresh analytics bucket. -/
def aInit : ABucket := ⟨0, 0, 0, [], []⟩

/-- Per-record mutation of an analytics bucket (analytics page, loop
body).  Returns an error exactly when
`new Date(record.origination_date).toISOString()` throws, which happens
for a record whose origination date is an unparseable string. -/
def aStep (r : Record) (a : ABucket) : Except Unit ABucket :=
  let a₁ : ABucket :=
    { a with
      totalInvested := a.totalInvested + r.total_sent.getD 0
      totalRecovered := a.totalRecovered + r.total_repaid.getD 0
      caseCount := a.caseCount + 1 }
  let a₂ : ABucket :=
    if r.origination_date.truthy && r.repayment_date.truthy then
      { a₁ with recoveryTimes := a₁.recoveryTimes ++ [recoveryDays? r] }
    else a₁
  match monthKey? r with
  | none => .error ()
  | some k =>
      let md := (lookupA k a₂.monthly).getD (0, 0)
      .ok { a₂ with
            monthly :=
              upsertA k (md.1 + r.total_sent.getD 0, md.2 + r.total_repaid.getD 0)
                a₂.monthly }

/-- One iteration of the `data?.forEach` loop on the analytics page. -/
def analyticsStep (m : List (String × ABucket)) (r : Record) :
    Except Unit (List (String × ABucket)) :=
  match keyOf r with
  | none => .ok m
  | some k => do
      let a ← aStep r ((lookupA k m).getD aInit)
      return upsertA k a m

/-- The analytics aggregation pass over the records; an `error` result
models the single try/catch of the page firing on a thrown exception. -/
def analyticsAgg (records : List Record) :
    Except Unit (List (String × ABucket)) :=
  records.foldlM analyticsStep []

/-- Recovery rate of an analytics bucket (analytics page, lines 93-95):
the repaid/sent ratio, 0 when nothing was invested. -/
def recoveryRate (a : ABucket) : ℚ :=
  if 0 < a.totalInvested then a.totalRecovered / a.totalInvested else 0

/-- Average recovery time in days over a duration list (lines 96-98):
the mean, or the 365-day default for an empty list. -/
def avgRecoveryTime (ts : List ℚ) : ℚ :=
  if ts = [] then 365 else ts.sum / ts.length

/-- Risk score from a recovery rate and an average recovery time
(lines 99-102). -/
def riskScore (rr avg : ℚ) : ℚ :=
  max 0 (min 100 ((1 - rr) * 50 + min (avg / 365) 1 * 50))

/-- Performance score from a recovery rate, an average recovery time
and a case count (lines 105-109); the risk score it discounts is
itself computed from `rr` and `avg`. -/
def performanceScore (rr avg : ℚ) (caseCount : ℕ) : ℚ :=
  min 100
    (rr * 40 + min ((caseCount : ℚ) / 10) 1 * 20 +
      (1 - riskScore rr avg / 100) * 40)

/-- Risk score of an aggregate together with its recovery-duration
list, the composition the spec calls `score(aggregate, durations)`. -/
def riskScoreOf (a : ABucket) (ts : List ℚ) : ℚ :=
  riskScore (recoveryRate a) (avgRecoveryTime ts)

/-- Letter grade from a performance score (lines 134-139): an if-chain
evaluated top-down. -/
def investmentGrade (ps : ℚ) : String :=
  if 90 ≤ ps then "A"
  else if 80 ≤ ps then "B"
  else if 70 ≤ ps then "C"
  else if 60 ≤ ps then "D"
  else if 50 ≤ ps then "E"
  else "F"

/-- Modelled from the spec: `clamp(lo, hi, x)` used in the risk-score
formula of the spec, read as the usual clamp `max lo (min hi x)`. -/
def clampSpec (lo hi x : ℚ) : ℚ := max lo (min hi x)

/-! ### Curves page: collection-curve bucketing (`fetchCurveData`) -/

/-- Milliseconds in the 30-day month used by the curves page. -/
def ms30 : Int := 1000 * 60 * 60 * 24 * 30

/-- Effective end timestamp of a case:
`record.repayment_date ? new Date(record.repayment_date) : new Date()` —
a falsy (null) column falls back to now, a truthy unparseable string
yields NaN (`none`). -/
def effEnd (now : Int) : RawDate → Option Int
  | .missing => some now
  | .invalid => none
  | .valid ms => some ms

/-- Whole 30-day months elapsed between origination and the effective
end; `none` models a NaN month count, whose loop never runs. -/
def monthsSince? (now : Int) (r : Record) : Option Int :=
  match r.origination_date.toDate, effEnd now r.repayment_date with
  | some o, some e => some ((e - o).fdiv ms30)
  | _, _ => none

/-- Month bucket of the curve of one provider (curves page). -/
structure MBucket where
  totalInvested : ℚ
  totalRecovered : ℚ
  caseCount : ℕ
deriving DecidableEq, Repr

/-- Fresh month bucket. -/
def mInit : MBucket := ⟨0, 0, 0⟩

/-- Body of the month loop for one case at month `i` (curves page,
lines 66-85): always add the invested amount and the case, and add the
linearly apportioned repaid share when `total_repaid` is truthy and the
month count is positive. -/
def mBump (r : Record) (ms : Int) (i : ℕ) (b : MBucket) : MBucket :=
  { totalInvested := b.totalInvested + r.total_sent.getD 0
    totalRecovered :=
      b.totalRecovered +
        (if r.total_repaid.getD 0 ≠ 0 ∧ 0 < ms then
          r.total_repaid.getD 0 * min ((i : ℚ) / (ms : ℚ)) 1
        else 0)
    caseCount := b.caseCount + 1 }

/-- Extend a month list with fresh buckets up to length `n`; the inner
`Map` always has the contiguous months `0..length-1` as keys because
the loop of every case starts at month 0. -/
def padTo (n : ℕ) (l : List MBucket) : List MBucket :=
  l ++ List.replicate (n - l.length) mInit

/-- Apply `f` to the buckets at indices `i, i+1, ...` that are below
`n`, leaving later months untouched. -/
def bumpUpTo (f : ℕ → MBucket → MBucket) : ℕ → ℕ → List MBucket → List MBucket
  | _, _, [] => []
  | i, n, b :: rest =>
      (if i < n then f i b else b) :: bumpUpTo f (i + 1) n rest

/-- Accumulate one case into the curve of its provider: the model of the
`for (let month = 0; month <= Math.min(monthsSince, 36); month++)`
loop.  A negative bound gives zero iterations. -/
def addCase (r : Record) (ms : Int) (l : List MBucket) : List MBucket :=
  let n := (min ms 36 + 1).toNat
  bumpUpTo (mBump r ms) 0 n (padTo n l)

/-- One iteration of the `data?.forEach` loop on the curves page: the
inner map of the provider is created before the month loop, so a record
whose month count is NaN still creates an empty curve. -/
def curveStep (now : Int) (m : List (String × List MBucket)) (r : Record) :
    List (String × List MBucket) :=
  match keyOf r with
  | none => m
  | some k =>
      let l := (lookupA k m).getD []
      match monthsSince? now r with
      | none => upsertA k l m
      | some ms => upsertA k (addCase r ms l) m

/-- The curve aggregation pass building `curveMap`. -/
def curveAgg (now : Int) (records : List Record) :
    List (String × List MBucket) :=
  records.foldl (curveStep now) []

/-- Emitted curve row (the `CurveData` entries of the page). -/
structure CurvePoint where
  month : ℕ
  provider : String
  recoveryRate : ℚ
  cumulativeRecovery : ℚ
  cases : ℕ
deriving DecidableEq, Repr

/-- Recovery rate of a month bucket (curves page, lines 93-95). -/
def rateOf (b : MBucket) : ℚ :=
  if 0 < b.totalInvested then b.totalRecovered / b.totalInvested * 100 else 0

/-- Emit the curve points of one provider from month `m` onwards with running
cumulative `cum` (curves page, lines 90-106). -/
def emitAux (p : String) : ℕ → ℚ → List MBucket → List CurvePoint
  | _, _, [] => []
  | m, cum, b :: rest =>
      ⟨m, p, rateOf b, cum + rateOf b, b.caseCount⟩ ::
        emitAux p (m + 1) (cum + rateOf b) rest

/-- Flattened curve output over all providers in insertion order. -/
def buildCurves (now : Int) (records : List Record) : List CurvePoint :=
  ((curveAgg now records).map (fun pr => emitAux pr.1 0 0 pr.2)).flatten

/-- The whole pipeline on one record set: provider aggregation,
analytics aggregation, and curve output, with the wall clock passed
explicitly. -/
def runPipeline (now : Int) (records : List Record) :
    List (String × PBucket) × Except Unit (List (String × ABucket)) ×
      List CurvePoint :=
  (providerAgg records, analyticsAgg records, buildCurves now records)

/-! ### Association-list lemmas -/

/-- Keys of an association list, in insertion order. -/
def keysOf {α β : Type} (m : List (α × β)) : List α := m.map Prod.fst

theorem lookupA_upsertA {α β : Type} [DecidableEq α] (p k : α) (v : β) :
    ∀ m : List (α × β),
      lookupA p (upsertA k v m) = if k = p then some v else lookupA p m := by
  intro m
  induction m with
  | nil => by_cases h : k = p <;> simp [upsertA, lookupA, h]
  | cons hd tl ih =>
      obtain ⟨k₁, v₁⟩ := hd
      by_cases h₁ : k₁ = k
      · subst h₁
        by_cases h₂ : k₁ = p <;> simp [upsertA, lookupA, h₂]
      · simp only [upsertA, if_neg h₁, lookupA]
        by_cases h₂ : k₁ = p
        · subst h₂
          have : ¬ k = k₁ := fun h => h₁ h.symm
          simp [lookupA, this]
        · simp [lookupA, h₂, ih]

theorem lookupA_eq_none_iff {α β : Type} [DecidableEq α] (k : α) :
    ∀ m : List (α × β), lookupA k m = none ↔ k ∉ keysOf m := by
  intro m
  induction m with
  | nil => simp [lookupA, keysOf]
  | cons hd tl ih =>
      obtain ⟨k₁, v₁⟩ := hd
      by_cases h : k₁ = k
      · subst h
        simp [lookupA, keysOf]
      · have h₂ : ¬ k = k₁ := fun hh => h hh.symm
        simp [lookupA, keysOf, h, h₂] at ih ⊢
        exact ih

theorem keysOf_upsertA {α β : Type} [DecidableEq α] (k : α) (v : β) :
    ∀ m : List (α × β),
      keysOf (upsertA k v m) =
        if k ∈ keysOf m then keysOf m else keysOf m ++ [k] := by
  intro m
  induction m with
  | nil => simp [upsertA, keysOf]
  | cons hd tl ih =>
      obtain ⟨k₁, v₁⟩ := hd
      by_cases h : k₁ = k
      · subst h
        simp [upsertA, keysOf]
      · have h₂ : ¬ k = k₁ := fun hh => h hh.symm
        simp only [upsertA, if_neg h, keysOf, List.map_cons] at ih ⊢
        rw [ih]
        by_cases hm : k ∈ List.map Prod.fst tl
        · simp [hm, h₂]
        · simp [hm, h₂]

theorem nodup_keysOf_upsertA {α β : Type} [DecidableEq α] (k : α) (v : β)
    (m : List (α × β)) (h : (keysOf m).Nodup) :
    (keysOf (upsertA k v m)).Nodup := by
  rw [keysOf_upsertA]
  by_cases hm : k ∈ keysOf m
  · simpa [hm]
  · rw [if_neg hm]
    simp [List.nodup_append, h, hm]

/-! ### Claim theorems -/

/-- C2: with an empty recovery-duration list the average recovery time
defaults to 365 days, and the risk score of any provider aggregate
equals the claimed `clamp(0, 100, (1 - recoveryRate) * 50 +
min(avgRecoveryDays / 365, 1) * 50)` with `avgRecoveryDays = 365`,
where `recoveryRate` is repaid over sent when anything was sent and 0
otherwise; the score is a pure function of the aggregate, hence
deterministic. -/
theorem riskScore_empty_durations (a : ABucket) :
    avgRecoveryTime [] = 365 ∧
    riskScoreOf a [] =
      clampSpec 0 100
        ((1 - (if 0 < a.totalInvested then a.totalRecovered / a.totalInvested
          else 0)) * 50 + min ((365 : ℚ) / 365) 1 * 50) := by
  constructor
  · rfl
  · simp [riskScoreOf, riskScore, recoveryRate, avgRecoveryTime, clampSpec]

/-- C3: the letter grade is the six-band function of the performance
score with closed-open bands evaluated top-down, and in particular a
score of exactly 90 grades "A", 89.999 grades "B", 50 grades "E" and
49.999 grades "F". -/
theorem investmentGrade_bands :
    (∀ ps : ℚ, 90 ≤ ps → investmentGrade ps = "A") ∧
    (∀ ps : ℚ, 80 ≤ ps → ps < 90 → investmentGrade ps = "B") ∧
    (∀ ps : ℚ, 70 ≤ ps → ps < 80 → investmentGrade ps = "C") ∧
    (∀ ps : ℚ, 60 ≤ ps → ps < 70 → investmentGrade ps = "D") ∧
    (∀ ps : ℚ, 50 ≤ ps → ps < 60 → investmentGrade ps = "E") ∧
    (∀ ps : ℚ, ps < 50 → investmentGrade ps = "F") ∧
    investmentGrade 90 = "A" ∧ investmentGrade (89999 / 1000) = "B" ∧
    investmentGrade 50 = "E" ∧ investmentGrade (49999 / 1000) = "F" := by
  refine ⟨?_, ?_, ?_, ?_, ?_, ?_, ?_, ?_, ?_, ?_⟩
  · intro ps h
    rw [investmentGrade, if_pos h]
  · intro ps h₁ h₂
    rw [investmentGrade, if_neg (by linarith), if_pos h₁]
  · intro ps h₁ h₂
    rw [investmentGrade, if_neg (by linarith), if_neg (by linarith), if_pos h₁]
  · intro ps h₁ h₂
    rw [investmentGrade, if_neg (by linarith), if_neg (by linarith),
      if_neg (by linarith), if_pos h₁]
  · intro ps h₁ h₂
    rw [investmentGrade, if_neg (by linarith), if_neg (by linarith),
      if_neg (by linarith), if_neg (by linarith), if_pos h₁]
  · intro ps h
    rw [investmentGrade, if_neg (by linarith), if_neg (by linarith),
      if_neg (by linarith), if_neg (by linarith), if_neg (by linarith)]
  · rw [investmentGrade, if_pos (by norm_num)]
  · rw [investmentGrade, if_neg (by norm_num), if_pos (by norm_num)]
  · rw [investmentGrade, if_neg (by norm_num), if_neg (by norm_num),
      if_neg (by norm_num), if_neg (by norm_num), if_pos (by norm_num)]
  · rw [investmentGrade, if_neg (by norm_num), if_neg (by norm_num),
      if_neg (by norm_num), if_neg (by norm_num), if_neg (by norm_num)]

/-- Witness for C3: the A band applied at the concrete score 95. -/
theorem investmentGrade_bands_witness : investmentGrade 95 = "A" :=
  investmentGrade_bands.1 95 (by norm_num)

/-- C4: with the average recovery time and the case count held fixed,
the performance score is monotonically non-decreasing in the recovery
rate, the risk score it discounts being itself recomputed from the
rate. -/
theorem performanceScore_monotone (r₁ r₂ avg : ℚ) (cc : ℕ) (h : r₁ ≤ r₂) :
    performanceScore r₁ avg cc ≤ performanceScore r₂ avg cc := by
  unfold performanceScore riskScore
  have h₁ :
      max 0 (min 100 ((1 - r₂) * 50 + min (avg / 365) 1 * 50)) ≤
        max 0 (min 100 ((1 - r₁) * 50 + min (avg / 365) 1 * 50)) :=
    max_le_max le_rfl (min_le_min le_rfl (by linarith))
  exact min_le_min le_rfl (by linarith)

/-- Witness for C4: monotonicity applied at recovery rates 0 and 1
with a 365-day average recovery time and 5 cases. -/
theorem performanceScore_monotone_witness :
    performanceScore 0 365 5 ≤ performanceScore 1 365 5 :=
  performanceScore_monotone 0 1 365 5 (by norm_num)

/-- First record of the aggregation example in the spec: provider "X",
1000 sent, 500 repaid, status "closed", and the repaid marker set. -/
def exRec1 : Record :=
  { provider_name_per_tbr := some "X"
    total_sent := some 1000
    total_repaid := some 500
    case_status := some "closed"
    repaid := true
    origination_date := .missing
    repayment_date := .missing }

/-- Second record of the aggregation example, with the literal
lowercase status string "pending" the spec writes. -/
def exRec2 : Record :=
  { exRec1 with
    total_sent := some 500
    total_repaid := some 500
    case_status := some "pending" }

/-- Second example record with the status marker the code actually
compares against, the capitalised "Pending". -/
def exRec2P : Record := { exRec2 with case_status := some "Pending" }

/-- Counterexample for C5: on the example records as literally stated
(statuses "closed" and "pending"), the aggregation yields
pending_cases 0 and closed_cases 2, not the claimed 1 and 1, because
the status test in the code is the case-sensitive
`record.case_status === "Pending"` and both records carry a truthy
repaid marker. -/
theorem aggregate_example_literal_counterexample :
    (lookupA "X" (providerAgg [exRec1, exRec2])).map PBucket.pending_cases =
      some 0 ∧
    (lookupA "X" (providerAgg [exRec1, exRec2])).map PBucket.closed_cases =
      some 2 ∧
    (lookupA "X" (providerAgg [exRec1, exRec2])).map PBucket.pending_cases ≠
      some 1 := by
  refine ⟨?_, ?_, ?_⟩ <;>
    simp [providerAgg, providerStep, keyOf, exRec1, exRec2, lookupA, upsertA,
      pStep, pInit]

/-- C5 amended: with the second record carrying the actual
pending marker of the code "Pending" (the comparison is case-sensitive), the "X"
bucket has total_sent 1500, total_repaid 1000, case_count 2,
pending_cases 1 and closed_cases 1 (the first record counts as closed
through its truthy repaid marker), and the finalised recovery rate is
exactly 200/3 percent, i.e. the ratio 2/3 ≈ 0.667. -/
theorem aggregate_example_amended :
    lookupA "X" (providerAgg [exRec1, exRec2P]) =
      some ⟨1500, 1000, 2, 1, 1, 3 / 2⟩ ∧
    (lookupA "X" (providerAgg [exRec1, exRec2P])).map recoveryRatePct =
      some (200 / 3) := by
  constructor <;>
    · simp [providerAgg, providerStep, keyOf, exRec1, exRec2, exRec2P,
        lookupA, upsertA, pStep, pInit, recoveryRatePct]
      norm_num

/-- The single case of the curve-bucketing example in the spec: provider
"P", 100 sent, 50 repaid, originated at the epoch and repaid exactly
ten 30-day months later. -/
def exCurveRec : Record :=
  { provider_name_per_tbr := some "P"
    total_sent := some 100
    total_repaid := some 50
    case_status := none
    repaid := false
    origination_date := .valid 0
    repayment_date := .valid (10 * ms30) }

/-- C6: the example case spans exactly 10 elapsed months, and its curve
shows a month-0 recovery rate of 0 percent, a month-5 rate of 25
percent and a month-10 rate of 50 percent; the month-5 bucket holds the
invested amount 100 (added once for that month) and the apportioned
recovery 50 * 5/10 = 25. -/
theorem curve_single_case_points :
    monthsSince? 0 exCurveRec = some 10 ∧
    (lookupA "P" (curveAgg 0 [exCurveRec])).map
        (fun l => l.get? 5) = some (some ⟨100, 25, 1⟩) ∧
    ((buildCurves 0 [exCurveRec]).get? 0).map
        (fun c => (c.month, c.recoveryRate)) = some (0, 0) ∧
    ((buildCurves 0 [exCurveRec]).get? 5).map
        (fun c => (c.month, c.recoveryRate)) = some (5, 25) ∧
    ((buildCurves 0 [exCurveRec]).get? 10).map
        (fun c => (c.month, c.recoveryRate)) = some (10, 50) := by
  refine ⟨by decide, ?_, ?_, ?_, ?_⟩ <;>
    · simp [buildCurves, curveAgg, curveStep, keyOf, exCurveRec, lookupA,
        upsertA, monthsSince?, RawDate.toDate, effEnd, addCase, ms30, padTo,
        mInit, bumpUpTo, mBump, emitAux, rateOf, min_def]
      try norm_num

/-- C8: the pipeline is a pure function of the record set and the
clock, so two invocations on the same inputs with nothing mutated in
between produce identical aggregation, scoring and curve output. -/
theorem pipeline_same_input_same_output (now : Int) (rs₁ rs₂ : List Record)
    (h : rs₁ = rs₂) : runPipeline now rs₁ = runPipeline now rs₂ := by
  rw [h]

/-- Witness for C8: the double invocation on the example record set. -/
theorem pipeline_same_input_same_output_witness :
    runPipeline 0 [exRec1, exRec2P] = runPipeline 0 [exRec1, exRec2P] :=
  pipeline_same_input_same_output 0 [exRec1, exRec2P] [exRec1, exRec2P] rfl

/-- A record whose origination date is a non-empty string that does not
parse as a date, with the provider column set. -/
def invalidOrigRec : Record := { exRec1 with origination_date := .invalid }

/-- Counterexample for C9: a record with a provider and an unparseable
origination-date string makes the analytics pass throw (an error in
the model), because `new Date(record.origination_date).toISOString()` is
called unguarded and throws on an Invalid Date; the record is not
degraded to a default. -/
theorem analytics_invalid_origination_error :
    analyticsAgg [invalidOrigRec] = .error () := by rfl

theorem aStep_ok (r : Record) (a : ABucket)
    (h : r.origination_date ≠ RawDate.invalid) :
    ∃ a₂, aStep r a = .ok a₂ := by
  unfold aStep
  cases hd : r.origination_date with
  | invalid => exact absurd hd h
  | missing => simp [monthKey?, hd, RawDate.toDate]
  | valid ms => simp [monthKey?, hd, RawDate.toDate]

theorem foldlM_analytics_ok (rs : List Record) :
    ∀ m, (∀ r ∈ rs, (keyOf r).isSome → r.origination_date ≠ RawDate.invalid) →
      ∃ m₂, rs.foldlM analyticsStep m = .ok m₂ := by
  induction rs with
  | nil => exact fun m _ => ⟨m, rfl⟩
  | cons r rs ih =>
      intro m h
      have hrest : ∀ r₂ ∈ rs, (keyOf r₂).isSome →
          r₂.origination_date ≠ RawDate.invalid :=
        fun r₂ hm => h r₂ (List.mem_cons_of_mem _ hm)
      rw [List.foldlM_cons]
      cases hk : keyOf r with
      | none =>
          have hstep : analyticsStep m r = .ok m := by
            simp [analyticsStep, hk]
          rw [hstep]
          simpa using ih m hrest
      | some k =>
          obtain ⟨a₂, ha⟩ :=
            aStep_ok r ((lookupA k m).getD aInit)
              (h r (List.mem_cons_self r rs) (by simp [hk]))
          have hstep : analyticsStep m r = .ok (upsertA k a₂ m) := by
            simp [analyticsStep, hk, ha]
          rw [hstep]
          simpa using ih (upsertA k a₂ m) hrest

/-- C9 amended: the numeric edge cases of the scoring pipeline (empty
duration list, zero totals) are resolved by the documented defaults,
and the analytics pass never errors provided every record with a
provider has an origination date that is null or parseable; but,
contrary to the claim, a record whose origination date is an
unparseable string makes the pass throw instead of degrading to a
default. -/
theorem analytics_ok_of_parseable_origination (records : List Record)
    (h : ∀ r ∈ records, (keyOf r).isSome →
      r.origination_date ≠ RawDate.invalid) :
    ∃ m, analyticsAgg records = .ok m :=
  foldlM_analytics_ok records [] h

/-- Witness for the amended theorem of C9: the example record (provider set,
origination date null) is aggregated without an error. -/
theorem analytics_ok_of_parseable_origination_witness :
    (analyticsAgg [exRec1]).isOk = true := by
  obtain ⟨m, hm⟩ :=
    analytics_ok_of_parseable_origination [exRec1]
      (by intro r hr _; simp at hr; subst hr; simp [exRec1])
  rw [hm]
  rfl

theorem pStep_counts (r : Record) (b : PBucket) :
    (pStep r b).case_count = b.case_count + 1 ∧
    (pStep r b).pending_cases + (pStep r b).closed_cases ≤
      b.pending_cases + b.closed_cases + 1 := by
  unfold pStep
  by_cases h₁ : r.case_status = some "Pending" <;>
    by_cases h₂ : r.repaid = true <;>
      by_cases h₃ : 0 < r.total_sent.getD 0 <;>
        simp [h₁, h₂, h₃] <;> omega

theorem foldl_counts_inv (rs : List Record) :
    ∀ m, (∀ p b, lookupA p m = some b →
        b.pending_cases + b.closed_cases ≤ b.case_count) →
      ∀ p b, lookupA p (rs.foldl providerStep m) = some b →
        b.pending_cases + b.closed_cases ≤ b.case_count := by
  induction rs with
  | nil => intro m hm; simpa using hm
  | cons r rs ih =>
      intro m hm
      rw [List.foldl_cons]
      apply ih
      intro p b hb
      unfold providerStep at hb
      cases hk : keyOf r with
      | none =>
          rw [hk] at hb
          exact hm p b hb
      | some k =>
          rw [hk] at hb
          rw [lookupA_upsertA] at hb
          by_cases hkp : k = p
          · rw [if_pos hkp] at hb
            have hbe := Option.some.inj hb
            have hOld : ((lookupA k m).getD pInit).pending_cases +
                ((lookupA k m).getD pInit).closed_cases ≤
                ((lookupA k m).getD pInit).case_count := by
              cases hl : lookupA k m with
              | none => simp [hl, pInit]
              | some b₀ => simpa [hl] using hm k b₀ hl
            have hc := pStep_counts r ((lookupA k m).getD pInit)
            rw [← hbe]
            omega
          · rw [if_neg hkp] at hb
            exact hm p b hb

/-- C10: in every provider bucket the aggregation produces, the
pending and closed counters together never exceed the case count: each
attributed record bumps the case count once and at most one of the two
status counters. -/
theorem pending_closed_le_case_count (records : List Record) (p : String)
    (b : PBucket) (hb : lookupA p (providerAgg records) = some b) :
    b.pending_cases + b.closed_cases ≤ b.case_count :=
  foldl_counts_inv records []
    (by intro p₂ b₂ h₂; simp [lookupA] at h₂) p b hb

/-- Witness for C10: the invariant at the "X" bucket of the example
aggregation, which has 1 pending and 1 closed case out of 2. -/
theorem pending_closed_le_case_count_witness :
    PBucket.pending_cases ⟨1500, 1000, 2, 1, 1, 3 / 2⟩ +
      PBucket.closed_cases ⟨1500, 1000, 2, 1, 1, 3 / 2⟩ ≤
      PBucket.case_count ⟨1500, 1000, 2, 1, 1, 3 / 2⟩ :=
  pending_closed_le_case_count [exRec1, exRec2P] "X" ⟨1500, 1000, 2, 1, 1, 3 / 2⟩
    (by
      simp [providerAgg, providerStep, keyOf, exRec1, exRec2, exRec2P,
        lookupA, upsertA, pStep, pInit]
      norm_num)

/-- Sum of a numeric bucket field over all provider buckets. -/
def sumF (f : PBucket → ℚ) (m : List (String × PBucket)) : ℚ :=
  (m.map (fun pr => f pr.2)).sum

theorem pStep_total_sent (r : Record) (b : PBucket) :
    (pStep r b).total_sent = b.total_sent + r.total_sent.getD 0 := by
  unfold pStep
  by_cases h₁ : r.case_status = some "Pending" <;>
    by_cases h₂ : r.repaid = true <;>
      by_cases h₃ : 0 < r.total_sent.getD 0 <;>
        simp [h₁, h₂, h₃]

theorem pStep_total_repaid (r : Record) (b : PBucket) :
    (pStep r b).total_repaid = b.total_repaid + r.total_repaid.getD 0 := by
  unfold pStep
  by_cases h₁ : r.case_status = some "Pending" <;>
    by_cases h₂ : r.repaid = true <;>
      by_cases h₃ : 0 < r.total_sent.getD 0 <;>
        simp [h₁, h₂, h₃]

theorem sumF_upsertA (f : PBucket → ℚ) (hf0 : f pInit = 0) (k : String)
    (v : PBucket) :
    ∀ m, sumF f (upsertA k v m) =
      sumF f m + f v - f ((lookupA k m).getD pInit) := by
  intro m
  induction m with
  | nil => simp [upsertA, sumF, lookupA, hf0]
  | cons hd tl ih =>
      obtain ⟨k₁, v₁⟩ := hd
      by_cases h : k₁ = k
      · subst h
        simp [upsertA, sumF, lookupA]
        ring
      · simp only [upsertA, if_neg h, sumF, lookupA, List.map_cons,
          List.sum_cons] at ih ⊢
        rw [ih]
        ring

theorem sumF_foldl (f : PBucket → ℚ) (g : Record → ℚ) (hf0 : f pInit = 0)
    (hstep : ∀ r b, f (pStep r b) = f b + g r) (rs : List Record) :
    ∀ m, sumF f (rs.foldl providerStep m) =
      sumF f m + ((rs.filter (fun r => (keyOf r).isSome)).map g).sum := by
  induction rs with
  | nil => intro m; simp
  | cons r rs ih =>
      intro m
      rw [List.foldl_cons, ih]
      cases hk : keyOf r with
      | none => simp [providerStep, hk, List.filter_cons]
      | some k =>
          simp only [providerStep, hk]
          rw [sumF_upsertA f hf0 k _ m, hstep]
          simp [List.filter_cons, hk]
          ring

theorem lookupA_foldl_key (f : PBucket → ℚ) (g : Record → ℚ)
    (hstep : ∀ r b, f (pStep r b) = f b + g r)
    (rs : List Record) (p : String) :
    ∀ m, f ((lookupA p (rs.foldl providerStep m)).getD pInit) =
      f ((lookupA p m).getD pInit) +
        ((rs.filter (fun r => keyOf r = some p)).map g).sum := by
  induction rs with
  | nil => intro m; simp
  | cons r rs ih =>
      intro m
      rw [List.foldl_cons, ih]
      have hone : f ((lookupA p (providerStep m r)).getD pInit) =
          f ((lookupA p m).getD pInit) +
            (if keyOf r = some p then g r else 0) := by
        cases hk : keyOf r with
        | none => simp [providerStep, hk]
        | some k =>
            simp only [providerStep, hk]
            rw [lookupA_upsertA]
            by_cases hkp : k = p
            · subst hkp
              simp [hstep]
            · have hne : ¬ (some k = some p) := by simp [hkp]
              simp [hkp, hne]
      rw [hone, List.filter_cons]
      by_cases hp : keyOf r = some p <;> simp [hp]
      ring

/-- C1: the aggregation conserves the input amounts.  Globally, the
sum over all provider buckets of total_sent equals the sum of the sent
amounts over exactly the records whose provider column is set, and
likewise for total_repaid; per key, the totals of each bucket equal the sums
over exactly the records attributed to that provider, so no record
contributes to more than one bucket. -/
theorem providerAgg_conserves_totals (records : List Record) :
    sumF PBucket.total_sent (providerAgg records) =
      ((records.filter (fun r => (keyOf r).isSome)).map
        (fun r => r.total_sent.getD 0)).sum ∧
    sumF PBucket.total_repaid (providerAgg records) =
      ((records.filter (fun r => (keyOf r).isSome)).map
        (fun r => r.total_repaid.getD 0)).sum ∧
    ∀ p b, lookupA p (providerAgg records) = some b →
      b.total_sent =
        ((records.filter (fun r => keyOf r = some p)).map
          (fun r => r.total_sent.getD 0)).sum ∧
      b.total_repaid =
        ((records.filter (fun r => keyOf r = some p)).map
          (fun r => r.total_repaid.getD 0)).sum := by
  refine ⟨?_, ?_, ?_⟩
  · have h := sumF_foldl PBucket.total_sent (fun r => r.total_sent.getD 0)
      rfl pStep_total_sent records []
    simpa [providerAgg, sumF] using h
  · have h := sumF_foldl PBucket.total_repaid (fun r => r.total_repaid.getD 0)
      rfl pStep_total_repaid records []
    simpa [providerAgg, sumF] using h
  · intro p b hb
    constructor
    · have h := lookupA_foldl_key PBucket.total_sent
        (fun r => r.total_sent.getD 0) pStep_total_sent records p []
      rw [providerAgg] at hb
      simpa [hb, lookupA, pInit] using h
    · have h := lookupA_foldl_key PBucket.total_repaid
        (fun r => r.total_repaid.getD 0) pStep_total_repaid records p []
      rw [providerAgg] at hb
      simpa [hb, lookupA, pInit] using h

/-- Witness for C1: the per-key conservation at the "X" bucket of the
example records, whose total_sent 1500 is the sum over the two attributed
records. -/
theorem providerAgg_conserves_totals_witness :
    PBucket.total_sent ⟨1500, 1000, 2, 1, 1, 3 / 2⟩ =
      (([exRec1, exRec2P].filter (fun r => keyOf r = some "X")).map
        (fun r => r.total_sent.getD 0)).sum :=
  ((providerAgg_conserves_totals [exRec1, exRec2P]).2.2 "X"
      ⟨1500, 1000, 2, 1, 1, 3 / 2⟩
      (by
        simp [providerAgg, providerStep, keyOf, exRec1, exRec2, exRec2P,
          lookupA, upsertA, pStep, pInit]
        norm_num)).1

theorem emitAux_length (p : String) :
    ∀ (l : List MBucket) (s : ℕ) (cum : ℚ),
      (emitAux p s cum l).length = l.length := by
  intro l
  induction l with
  | nil => intro s cum; rfl
  | cons b rest ih => intro s cum; simp [emitAux, ih]

theorem emitAux_provider (p : String) :
    ∀ (l : List MBucket) (s : ℕ) (cum : ℚ) (c : CurvePoint),
      c ∈ emitAux p s cum l → c.provider = p := by
  intro l
  induction l with
  | nil => intro s cum c hc; simp [emitAux] at hc
  | cons b rest ih =>
      intro s cum c hc
      rw [emitAux, List.mem_cons] at hc
      rcases hc with hc | hc
      · rw [hc]
      · exact ih _ _ c hc

theorem emitAux_get? (p : String) :
    ∀ (l : List MBucket) (s : ℕ) (cum : ℚ) (i : ℕ) (h : i < l.length),
      (emitAux p s cum l).get? i =
        some ⟨s + i, p, rateOf (l.get ⟨i, h⟩),
          cum + ((l.take (i + 1)).map rateOf).sum,
          (l.get ⟨i, h⟩).caseCount⟩ := by
  intro l
  induction l with
  | nil => intro s cum i h; exact absurd h (by simp)
  | cons b rest ih =>
      intro s cum i h
      cases i with
      | zero => simp [emitAux, List.get]
      | succ i =>
          have hlt : i < rest.length := Nat.lt_of_succ_lt_succ h
          simp only [emitAux, List.get?_cons_succ]
          rw [ih (s + 1) (cum + rateOf b) i hlt]
          simp [List.take_succ_cons, List.get, CurvePoint.mk.injEq]
          refine ⟨by omega, by ring⟩

theorem filter_emitAux_self (p : String) (l : List MBucket) (s : ℕ) (cum : ℚ) :
    (emitAux p s cum l).filter (fun c => c.provider == p) =
      emitAux p s cum l := by
  rw [List.filter_eq_self]
  intro c hc
  simp [emitAux_provider p l s cum c hc]

theorem filter_emitAux_ne (p q : String) (hne : q ≠ p) (l : List MBucket)
    (s : ℕ) (cum : ℚ) :
    (emitAux q s cum l).filter (fun c => c.provider == p) = [] := by
  rw [List.filter_eq_nil_iff]
  intro c hc
  simp [emitAux_provider q l s cum c hc, hne]

theorem filter_flatten_not_mem (p : String) :
    ∀ m : List (String × List MBucket), p ∉ keysOf m →
      ((m.map (fun pr => emitAux pr.1 0 0 pr.2)).flatten).filter
        (fun c => c.provider == p) = [] := by
  intro m
  induction m with
  | nil => intro _; simp
  | cons hd tl ih =>
      obtain ⟨q, lq⟩ := hd
      intro hp
      simp only [keysOf, List.map_cons, List.mem_cons, not_or] at hp
      simp only [List.map_cons, List.flatten_cons, List.filter_append]
      rw [filter_emitAux_ne p q (fun hh => hp.1 hh.symm),
        ih (by simpa [keysOf] using hp.2)]
      rfl

theorem filter_flatten_emit (p : String) (l : List MBucket) :
    ∀ m : List (String × List MBucket), (keysOf m).Nodup →
      lookupA p m = some l →
      ((m.map (fun pr => emitAux pr.1 0 0 pr.2)).flatten).filter
        (fun c => c.provider == p) = emitAux p 0 0 l := by
  intro m
  induction m with
  | nil => intro _ hl; simp [lookupA] at hl
  | cons hd tl ih =>
      obtain ⟨q, lq⟩ := hd
      intro hnd hl
      simp only [List.map_cons, List.flatten_cons, List.filter_append]
      have hnd₂ : q ∉ keysOf tl ∧ (keysOf tl).Nodup := List.nodup_cons.mp hnd
      by_cases hqp : q = p
      · subst hqp
        have hlq : lq = l := by simpa [lookupA] using hl
        subst hlq
        rw [filter_emitAux_self, filter_flatten_not_mem q tl hnd₂.1,
          List.append_nil]
      · rw [filter_emitAux_ne p q hqp, List.nil_append]
        exact ih hnd₂.2 (by simpa [lookupA, hqp] using hl)

theorem curveStep_nodup (now : Int) (m : List (String × List MBucket))
    (r : Record) (h : (keysOf m).Nodup) :
    (keysOf (curveStep now m r)).Nodup := by
  unfold curveStep
  cases keyOf r with
  | none => exact h
  | some k =>
      cases monthsSince? now r with
      | none => exact nodup_keysOf_upsertA k _ m h
      | some ms => exact nodup_keysOf_upsertA k _ m h

theorem curveAgg_nodup_aux (now : Int) (rs : List Record) :
    ∀ m, (keysOf m).Nodup → (keysOf (rs.foldl (curveStep now) m)).Nodup := by
  induction rs with
  | nil => intro m h; simpa using h
  | cons r rs ih =>
      intro m h
      rw [List.foldl_cons]
      exact ih _ (curveStep_nodup now m r h)

theorem curveAgg_nodup (now : Int) (records : List Record) :
    (keysOf (curveAgg now records)).Nodup :=
  curveAgg_nodup_aux now records [] (by simp [keysOf])

/-- C7: for each provider, the emitted curve points are in increasing
month order (the point at position i is month i), each carries
recoveryRate equal to totalRecovered/totalInvested * 100 (0 on a zero
denominator, via rateOf), and the cumulativeRecovery of each point is
the running sum of the recoveryRate values of the points of that
provider up to
and including that month — a sum of rates, not a rate recomputed from
cumulative totals. -/
theorem curve_points_ordered (now : Int) (records : List Record) (p : String)
    (l : List MBucket) (hl : lookupA p (curveAgg now records) = some l) :
    ((buildCurves now records).filter
        (fun c => c.provider == p)).length = l.length ∧
    ∀ i (h : i < l.length),
      ((buildCurves now records).filter (fun c => c.provider == p)).get? i =
        some ⟨i, p, rateOf (l.get ⟨i, h⟩),
          ((l.take (i + 1)).map rateOf).sum, (l.get ⟨i, h⟩).caseCount⟩ := by
  have hfil : (buildCurves now records).filter (fun c => c.provider == p) =
      emitAux p 0 0 l :=
    filter_flatten_emit p l (curveAgg now records)
      (curveAgg_nodup now records) hl
  rw [hfil]
  refine ⟨emitAux_length p l 0 0, ?_⟩
  intro i h
  rw [emitAux_get? p l 0 0 i h]
  simp

/-- The single case used to witness C7: provider "W", 100 sent, 50
repaid, repaid exactly two 30-day months after origination. -/
def exCurveRecW : Record :=
  { provider_name_per_tbr := some "W"
    total_sent := some 100
    total_repaid := some 50
    case_status := none
    repaid := false
    origination_date := .valid 0
    repayment_date := .valid (2 * ms30) }

/-- Witness for C7: on the two-month witness case, the provider-"W"
point at position 1 is month 1 with rate 25 and cumulative 0 + 25. -/
theorem curve_points_ordered_witness :
    ((buildCurves 0 [exCurveRecW]).filter
        (fun c => c.provider == "W")).get? 1 =
      some ⟨1, "W", 25, 25, 1⟩ := by
  have h := curve_points_ordered 0 [exCurveRecW] "W"
    [⟨100, 0, 1⟩, ⟨100, 25, 1⟩, ⟨100, 50, 1⟩]
    (by
      simp [curveAgg, curveStep, keyOf, exCurveRecW, lookupA, upsertA,
        monthsSince?, RawDate.toDate, effEnd, addCase, ms30, padTo, mInit,
        bumpUpTo, mBump, min_def]
      norm_num)
  have h₂ := h.2 1 (by norm_num)
  rw [h₂]
  norm_num [rateOf, List.get]

end CollectionCurves
